import Mathlib

/-!
Shallow embedding of the `toy_pay` ledger core (`src/transaction.rs`).

Amounts are modelled as exact rationals (`ℚ`); the source uses `f64`, and
`round4` below mirrors `(x * 10000.0).round() / 10000.0` with Rust's
`f64::round` semantics (round half away from zero).  Client and transaction
identifiers are opaque keys, modelled as `Nat`.  The per-account transaction
store (`HashMap<u32, Record>`) is modelled as a function `Nat → Option Record`
with overwriting insertion, and the registry's `HashMap<u16, LiveAccount>`
likewise as `Nat → Option LiveAccount`.
-/

namespace ToyPay

/-- One input record: `type`, `client`, `tx`, optional `amount`, and the
`frozen` (disputed) flag carried on the struct, as in `Record` in the source. -/
structure Record where
  type : String
  client : Nat
  tx : Nat
  amount : Option ℚ
  frozen : Bool
deriving DecidableEq, Repr

/-- Round half away from zero to the nearest integer, as Rust's `f64::round`. -/
def roundAZ (q : ℚ) : ℤ :=
  if 0 ≤ q then ⌊q + 1/2⌋ else -⌊-q + 1/2⌋

/-- Round to four decimal places: `(x * 10000.0).round() / 10000.0`. -/
def round4 (q : ℚ) : ℚ :=
  (roundAZ (q * 10000) : ℚ) / 10000

/-- Balances of one client account, as `AccountDetails` in the source. -/
structure AccountDetails where
  client : Nat
  available : ℚ
  held : ℚ
  total : ℚ
  locked : Bool
deriving DecidableEq, Repr

/-- The `round_values` method: round `held`, `total`, `available` to 4 dp. -/
def round_values (d : AccountDetails) : AccountDetails :=
  { d with
    held := round4 d.held
    total := round4 d.total
    available := round4 d.available }

/-- The `recompute_total` method: `total = available + held`, then round. -/
def recompute_total (d : AccountDetails) : AccountDetails :=
  round_values { d with total := d.available + d.held }

/-- A client ledger: stored transactions plus balances (`LiveAccount`). -/
structure LiveAccount where
  transaction_record : Nat → Option Record
  account_details : AccountDetails

/-- Overwriting insertion, as `HashMap::insert`. -/
def insertTx (m : Nat → Option Record) (k : Nat) (t : Record) :
    Nat → Option Record :=
  fun k' => if k' = k then some t else m k'

/-- A fresh zero-balance, unlocked account (`add_account` / fresh `LiveAccount`). -/
def newAccount (id : Nat) : LiveAccount :=
  { transaction_record := fun _ => none
    account_details :=
      { client := id, available := 0, held := 0, total := 0, locked := false } }

/-- The `deposit` method: no-op when locked or the amount is absent; otherwise
add the amount to `available` and store the record keyed by `tx`. -/
def deposit (acc : LiveAccount) (r : Record) : LiveAccount :=
  if acc.account_details.locked then acc
  else
    match r.amount with
    | none => acc
    | some a =>
      { transaction_record := insertTx acc.transaction_record r.tx r
        account_details :=
          { acc.account_details with
            available := acc.account_details.available + a } }

/-- The `withdraw` method: no-op when locked or the amount is absent; otherwise
subtract the amount from `available` and store the record keyed by `tx`. -/
def withdraw (acc : LiveAccount) (r : Record) : LiveAccount :=
  if acc.account_details.locked then acc
  else
    match r.amount with
    | none => acc
    | some a =>
      { transaction_record := insertTx acc.transaction_record r.tx r
        account_details :=
          { acc.account_details with
            available := acc.account_details.available - a } }

/-- The `dispute` method: no-op when locked, when `tx` is not stored, when the
stored transaction is already frozen, or when its amount is absent; otherwise
move the stored amount from `available` to `held` and set its `frozen` flag. -/
def dispute (acc : LiveAccount) (r : Record) : LiveAccount :=
  if acc.account_details.locked then acc
  else
    match acc.transaction_record r.tx with
    | none => acc
    | some t =>
      if t.frozen then acc
      else
        match t.amount with
        | none => acc
        | some a =>
          { transaction_record :=
              insertTx acc.transaction_record r.tx { t with frozen := true }
            account_details :=
              { acc.account_details with
                available := acc.account_details.available - a
                held := acc.account_details.held + a } }

/-- The `resolve` method: no-op when locked, when `tx` is not stored, or when
the stored transaction is not frozen.  Otherwise clear the `frozen` flag (the
source does this before inspecting the amount) and, when the amount is
present, move it from `held` back to `available`. -/
def resolve (acc : LiveAccount) (r : Record) : LiveAccount :=
  if acc.account_details.locked then acc
  else
    match acc.transaction_record r.tx with
    | none => acc
    | some t =>
      if !t.frozen then acc
      else
        match t.amount with
        | none =>
          { acc with
            transaction_record :=
              insertTx acc.transaction_record r.tx { t with frozen := false } }
        | some a =>
          { transaction_record :=
              insertTx acc.transaction_record r.tx { t with frozen := false }
            account_details :=
              { acc.account_details with
                available := acc.account_details.available + a
                held := acc.account_details.held - a } }

/-- The `chargeback` method: no-op when `tx` is not stored, when the stored
transaction is not frozen, or when its amount is absent; otherwise subtract
the stored amount from `held` and set `locked`.  There is no `locked` guard
and the stored transaction's `frozen` flag is left set. -/
def chargeback (acc : LiveAccount) (r : Record) : LiveAccount :=
  match acc.transaction_record r.tx with
  | none => acc
  | some t =>
    if !t.frozen then acc
    else
      match t.amount with
      | none => acc
      | some a =>
        { acc with
          account_details :=
            { acc.account_details with
              held := acc.account_details.held - a
              locked := true } }

/-- Lift `recompute_total` to a `LiveAccount`. -/
def recompute (acc : LiveAccount) : LiveAccount :=
  { acc with account_details := recompute_total acc.account_details }

/-- The `process_transaction` method: dispatch on `type`; an unrecognized kind
returns immediately, every recognized kind is followed by `recompute_total`. -/
def process_transaction (acc : LiveAccount) (r : Record) : LiveAccount :=
  if r.type = "deposit" then recompute (deposit acc r)
  else if r.type = "withdrawal" then recompute (withdraw acc r)
  else if r.type = "dispute" then recompute (dispute acc r)
  else if r.type = "resolve" then recompute (resolve acc r)
  else if r.type = "chargeback" then recompute (chargeback acc r)
  else acc

/-- Process a list of records against one account, in order. -/
def processList (acc : LiveAccount) (rs : List Record) : LiveAccount :=
  rs.foldl process_transaction acc

/-- The registry of accounts (`AccountRegistry`). -/
structure AccountRegistry where
  accounts : Nat → Option LiveAccount

/-- The `process_record` method: look up or lazily create the client's
account, then delegate to `process_transaction`. -/
def process_record (reg : AccountRegistry) (r : Record) : AccountRegistry :=
  let acc :=
    match reg.accounts r.client with
    | some a => a
    | none => newAccount r.client
  ⟨fun c => if c = r.client then some (process_transaction acc r) else reg.accounts c⟩

/-- Process a whole input stream from an empty registry (`run`'s loop). -/
def processRecords (rs : List Record) : AccountRegistry :=
  rs.foldl process_record ⟨fun _ => none⟩

/-- A rational is a whole number of 10⁻⁴ units (it is exactly representable
at four decimal places, the granularity `round4` rounds to). -/
def quant (q : ℚ) : Prop :=
  ∃ n : ℤ, q = (n : ℚ) / 10000

/-- Every record of the stream carries a 4-decimal amount (if any). -/
def recordQuant (r : Record) : Prop :=
  ∀ a, r.amount = some a → quant a

/-- Every stored transaction of the account carries a present amount. -/
def storedOk (acc : LiveAccount) : Prop :=
  ∀ k t, acc.transaction_record k = some t → t.amount.isSome = true

/-- Every stored transaction's amount is 4-decimal. -/
def mapQuant (m : Nat → Option Record) : Prop :=
  ∀ k t a, m k = some t → t.amount = some a → quant a

/-- The five recognized record kinds. -/
def recognizedKind (r : Record) : Prop :=
  r.type = "deposit" ∨ r.type = "withdrawal" ∨ r.type = "dispute" ∨
    r.type = "resolve" ∨ r.type = "chargeback"

/-- The operation `process_transaction` dispatches to, without the trailing
`recompute_total`; an unrecognized kind maps to the identity. -/
def dispatch (acc : LiveAccount) (r : Record) : LiveAccount :=
  if r.type = "deposit" then deposit acc r
  else if r.type = "withdrawal" then withdraw acc r
  else if r.type = "dispute" then dispute acc r
  else if r.type = "resolve" then resolve acc r
  else if r.type = "chargeback" then chargeback acc r
  else acc

instance recognizedKindDec (r : Record) : Decidable (recognizedKind r) :=
  inferInstanceAs (Decidable (_ ∨ _ ∨ _ ∨ _ ∨ _))

/-- The account's balances and stored amounts are 4-decimal. -/
def partQuant (acc : LiveAccount) : Prop :=
  quant acc.account_details.available ∧ quant acc.account_details.held ∧
    mapQuant acc.transaction_record

/-- `partQuant` together with the balance invariant
`total = available + held`. -/
def ledgerQuant (acc : LiveAccount) : Prop :=
  quant acc.account_details.available ∧ quant acc.account_details.held ∧
    acc.account_details.total =
      acc.account_details.available + acc.account_details.held ∧
    mapQuant acc.transaction_record

theorem floor_half : ⌊(1 : ℚ)/2⌋ = 0 := by norm_num

theorem roundAZ_intCast (n : ℤ) : roundAZ (n : ℚ) = n := by
  unfold roundAZ
  rcases le_or_lt 0 (n : ℚ) with h | h
  · rw [if_pos h, Int.floor_int_add, floor_half, add_zero]
  · rw [if_neg (not_le.mpr h)]
    have : -(n : ℚ) = ((-n : ℤ) : ℚ) := by push_cast; ring
    rw [this, Int.floor_int_add, floor_half, add_zero, neg_neg]

theorem quant_round4 {q : ℚ} (h : quant q) : round4 q = q := by
  obtain ⟨n, rfl⟩ := h
  unfold round4
  rw [div_mul_cancel₀ (n : ℚ) (by norm_num), roundAZ_intCast]

theorem quant_zero : quant 0 := ⟨0, by norm_num⟩

theorem quant_add {a b : ℚ} (ha : quant a) (hb : quant b) : quant (a + b) := by
  obtain ⟨n, rfl⟩ := ha
  obtain ⟨m, rfl⟩ := hb
  exact ⟨n + m, by push_cast; ring⟩

theorem quant_sub {a b : ℚ} (ha : quant a) (hb : quant b) : quant (a - b) := by
  obtain ⟨n, rfl⟩ := ha
  obtain ⟨m, rfl⟩ := hb
  exact ⟨n - m, by push_cast; ring⟩

theorem round4_quant (q : ℚ) : quant (round4 q) :=
  ⟨roundAZ (q * 10000), rfl⟩

@[simp] theorem process_eq_deposit (acc : LiveAccount) (r : Record)
    (h : r.type = "deposit") :
    process_transaction acc r = recompute (deposit acc r) := by
  simp [process_transaction, h]

@[simp] theorem process_eq_withdraw (acc : LiveAccount) (r : Record)
    (h : r.type = "withdrawal") :
    process_transaction acc r = recompute (withdraw acc r) := by
  simp [process_transaction, h]

@[simp] theorem process_eq_dispute (acc : LiveAccount) (r : Record)
    (h : r.type = "dispute") :
    process_transaction acc r = recompute (dispute acc r) := by
  simp [process_transaction, h]

@[simp] theorem process_eq_resolve (acc : LiveAccount) (r : Record)
    (h : r.type = "resolve") :
    process_transaction acc r = recompute (resolve acc r) := by
  simp [process_transaction, h]

@[simp] theorem process_eq_chargeback (acc : LiveAccount) (r : Record)
    (h : r.type = "chargeback") :
    process_transaction acc r = recompute (chargeback acc r) := by
  simp [process_transaction, h]

theorem process_eq_unknown (acc : LiveAccount) (r : Record)
    (h : ¬ recognizedKind r) :
    process_transaction acc r = acc := by
  rw [recognizedKind] at h
  push_neg at h
  obtain ⟨h1, h2, h3, h4, h5⟩ := h
  simp [process_transaction, h1, h2, h3, h4, h5]

theorem process_eq_dispatch (acc : LiveAccount) (r : Record) :
    process_transaction acc r =
      if recognizedKind r then recompute (dispatch acc r) else acc := by
  unfold process_transaction dispatch recognizedKind
  by_cases h1 : r.type = "deposit" <;> by_cases h2 : r.type = "withdrawal" <;>
    by_cases h3 : r.type = "dispute" <;> by_cases h4 : r.type = "resolve" <;>
    by_cases h5 : r.type = "chargeback" <;>
    simp [h1, h2, h3, h4, h5]

@[simp] theorem recompute_map (acc : LiveAccount) :
    (recompute acc).transaction_record = acc.transaction_record := rfl

@[simp] theorem recompute_available (acc : LiveAccount) :
    (recompute acc).account_details.available =
      round4 acc.account_details.available := rfl

@[simp] theorem recompute_held (acc : LiveAccount) :
    (recompute acc).account_details.held = round4 acc.account_details.held := rfl

@[simp] theorem recompute_total_eq (acc : LiveAccount) :
    (recompute acc).account_details.total =
      round4 (acc.account_details.available + acc.account_details.held) := rfl

@[simp] theorem recompute_locked (acc : LiveAccount) :
    (recompute acc).account_details.locked = acc.account_details.locked := rfl

@[simp] theorem recompute_client (acc : LiveAccount) :
    (recompute acc).account_details.client = acc.account_details.client := rfl

theorem deposit_of_locked (acc : LiveAccount) (r : Record)
    (h : acc.account_details.locked = true) : deposit acc r = acc := by
  simp [deposit, h]

theorem withdraw_of_locked (acc : LiveAccount) (r : Record)
    (h : acc.account_details.locked = true) : withdraw acc r = acc := by
  simp [withdraw, h]

theorem dispute_of_locked (acc : LiveAccount) (r : Record)
    (h : acc.account_details.locked = true) : dispute acc r = acc := by
  simp [dispute, h]

theorem resolve_of_locked (acc : LiveAccount) (r : Record)
    (h : acc.account_details.locked = true) : resolve acc r = acc := by
  simp [resolve, h]

theorem deposit_of_none (acc : LiveAccount) (r : Record)
    (h : r.amount = none) : deposit acc r = acc := by
  simp [deposit, h]

theorem withdraw_of_none (acc : LiveAccount) (r : Record)
    (h : r.amount = none) : withdraw acc r = acc := by
  simp [withdraw, h]

theorem dispute_of_not_found (acc : LiveAccount) (r : Record)
    (h : acc.transaction_record r.tx = none) : dispute acc r = acc := by
  simp [dispute, h]

theorem resolve_of_not_found (acc : LiveAccount) (r : Record)
    (h : acc.transaction_record r.tx = none) : resolve acc r = acc := by
  simp [resolve, h]

theorem chargeback_of_not_found (acc : LiveAccount) (r : Record)
    (h : acc.transaction_record r.tx = none) : chargeback acc r = acc := by
  simp [chargeback, h]

theorem dispute_of_frozen (acc : LiveAccount) (r : Record) (t : Record)
    (ht : acc.transaction_record r.tx = some t) (hf : t.frozen = true) :
    dispute acc r = acc := by
  simp [dispute, ht, hf]

theorem resolve_of_not_frozen (acc : LiveAccount) (r : Record) (t : Record)
    (ht : acc.transaction_record r.tx = some t) (hf : t.frozen = false) :
    resolve acc r = acc := by
  simp [resolve, ht, hf]

theorem chargeback_of_not_frozen (acc : LiveAccount) (r : Record) (t : Record)
    (ht : acc.transaction_record r.tx = some t) (hf : t.frozen = false) :
    chargeback acc r = acc := by
  simp [chargeback, ht, hf]

theorem deposit_effect (acc : LiveAccount) (r : Record) (a : ℚ)
    (hl : acc.account_details.locked = false) (ha : r.amount = some a) :
    deposit acc r =
      { transaction_record := insertTx acc.transaction_record r.tx r
        account_details :=
          { acc.account_details with
            available := acc.account_details.available + a } } := by
  simp [deposit, hl, ha]

theorem withdraw_effect (acc : LiveAccount) (r : Record) (a : ℚ)
    (hl : acc.account_details.locked = false) (ha : r.amount = some a) :
    withdraw acc r =
      { transaction_record := insertTx acc.transaction_record r.tx r
        account_details :=
          { acc.account_details with
            available := acc.account_details.available - a } } := by
  simp [withdraw, hl, ha]

theorem dispute_effect (acc : LiveAccount) (r : Record) (t : Record) (a : ℚ)
    (hl : acc.account_details.locked = false)
    (ht : acc.transaction_record r.tx = some t)
    (hf : t.frozen = false) (ha : t.amount = some a) :
    dispute acc r =
      { transaction_record :=
          insertTx acc.transaction_record r.tx { t with frozen := true }
        account_details :=
          { acc.account_details with
            available := acc.account_details.available - a
            held := acc.account_details.held + a } } := by
  simp [dispute, hl, ht, hf, ha]

theorem resolve_effect (acc : LiveAccount) (r : Record) (t : Record) (a : ℚ)
    (hl : acc.account_details.locked = false)
    (ht : acc.transaction_record r.tx = some t)
    (hf : t.frozen = true) (ha : t.amount = some a) :
    resolve acc r =
      { transaction_record :=
          insertTx acc.transaction_record r.tx { t with frozen := false }
        account_details :=
          { acc.account_details with
            available := acc.account_details.available + a
            held := acc.account_details.held - a } } := by
  simp [resolve, hl, ht, hf, ha]

theorem chargeback_effect (acc : LiveAccount) (r : Record) (t : Record) (a : ℚ)
    (ht : acc.transaction_record r.tx = some t)
    (hf : t.frozen = true) (ha : t.amount = some a) :
    chargeback acc r =
      { acc with
        account_details :=
          { acc.account_details with
            held := acc.account_details.held - a
            locked := true } } := by
  simp [chargeback, ht, hf, ha]

theorem storedOk_insertTx {acc : LiveAccount} (h : storedOk acc) {k : Nat}
    {t : Record} (ht : t.amount.isSome = true) :
    ∀ k' t', insertTx acc.transaction_record k t k' = some t' →
      t'.amount.isSome = true := by
  intro k' t' h'
  unfold insertTx at h'
  by_cases hk : k' = k
  · rw [if_pos hk] at h'
    cases h'
    exact ht
  · rw [if_neg hk] at h'
    exact h _ _ h'

theorem storedOk_recompute {acc : LiveAccount} (h : storedOk acc) :
    storedOk (recompute acc) := h

theorem storedOk_deposit {acc : LiveAccount} (h : storedOk acc) (r : Record) :
    storedOk (deposit acc r) := by
  by_cases hl : acc.account_details.locked = true
  · rw [deposit_of_locked acc r hl]; exact h
  · rcases ha : r.amount with _ | a
    · rw [deposit_of_none acc r ha]; exact h
    · rw [deposit_effect acc r a (by simpa using hl) ha]
      exact storedOk_insertTx h (by simp [ha])

theorem storedOk_withdraw {acc : LiveAccount} (h : storedOk acc) (r : Record) :
    storedOk (withdraw acc r) := by
  by_cases hl : acc.account_details.locked = true
  · rw [withdraw_of_locked acc r hl]; exact h
  · rcases ha : r.amount with _ | a
    · rw [withdraw_of_none acc r ha]; exact h
    · rw [withdraw_effect acc r a (by simpa using hl) ha]
      exact storedOk_insertTx h (by simp [ha])

theorem storedOk_dispute {acc : LiveAccount} (h : storedOk acc) (r : Record) :
    storedOk (dispute acc r) := by
  by_cases hl : acc.account_details.locked = true
  · rw [dispute_of_locked acc r hl]; exact h
  · rcases ht : acc.transaction_record r.tx with _ | t
    · rw [dispute_of_not_found acc r ht]; exact h
    · by_cases hf : t.frozen = true
      · rw [dispute_of_frozen acc r t ht hf]; exact h
      · rcases ha : t.amount with _ | a
        · exact absurd (h _ _ ht) (by simp [ha])
        · rw [dispute_effect acc r t a (by simpa using hl) ht
            (by simpa using hf) ha]
          exact storedOk_insertTx h (by simp [ha])

theorem storedOk_resolve {acc : LiveAccount} (h : storedOk acc) (r : Record) :
    storedOk (resolve acc r) := by
  by_cases hl : acc.account_details.locked = true
  · rw [resolve_of_locked acc r hl]; exact h
  · rcases ht : acc.transaction_record r.tx with _ | t
    · rw [resolve_of_not_found acc r ht]; exact h
    · by_cases hf : t.frozen = true
      · rcases ha : t.amount with _ | a
        · exact absurd (h _ _ ht) (by simp [ha])
        · rw [resolve_effect acc r t a (by simpa using hl) ht hf ha]
          exact storedOk_insertTx h (by simp [ha])
      · rw [resolve_of_not_frozen acc r t ht (by simpa using hf)]; exact h

theorem storedOk_chargeback {acc : LiveAccount} (h : storedOk acc)
    (r : Record) : storedOk (chargeback acc r) := by
  rcases ht : acc.transaction_record r.tx with _ | t
  · rw [chargeback_of_not_found acc r ht]; exact h
  · by_cases hf : t.frozen = true
    · rcases ha : t.amount with _ | a
      · exact absurd (h _ _ ht) (by simp [ha])
      · rw [chargeback_effect acc r t a ht hf ha]; exact h
    · rw [chargeback_of_not_frozen acc r t ht (by simpa using hf)]; exact h

theorem storedOk_process {acc : LiveAccount} (h : storedOk acc) (r : Record) :
    storedOk (process_transaction acc r) := by
  rw [process_eq_dispatch]
  by_cases hr : recognizedKind r
  · rw [if_pos hr]
    apply storedOk_recompute
    unfold dispatch
    by_cases h1 : r.type = "deposit"
    · rw [if_pos h1]; exact storedOk_deposit h r
    · rw [if_neg h1]
      by_cases h2 : r.type = "withdrawal"
      · rw [if_pos h2]; exact storedOk_withdraw h r
      · rw [if_neg h2]
        by_cases h3 : r.type = "dispute"
        · rw [if_pos h3]; exact storedOk_dispute h r
        · rw [if_neg h3]
          by_cases h4 : r.type = "resolve"
          · rw [if_pos h4]; exact storedOk_resolve h r
          · rw [if_neg h4]
            by_cases h5 : r.type = "chargeback"
            · rw [if_pos h5]; exact storedOk_chargeback h r
            · rw [if_neg h5]; exact h
  · rw [if_neg hr]; exact h

theorem storedOk_newAccount (c : Nat) : storedOk (newAccount c) := by
  intro k t h
  simp [newAccount] at h

theorem storedOk_processList {acc : LiveAccount} (h : storedOk acc)
    (rs : List Record) : storedOk (processList acc rs) := by
  induction rs generalizing acc with
  | nil => exact h
  | cons r rs ih => exact ih (storedOk_process h r)

/-- C10: every transaction stored in a ledger built from a fresh account by
processing any record stream carries a present amount, because `deposit` and
`withdraw` return before storing when the amount is absent and the dispute
lifecycle only rewrites the `frozen` flag; hence the `None` amount branches
of `dispute`, `resolve` and `chargeback` are unreachable on such states. -/
theorem c10_stored_amounts_present (c : Nat) (rs : List Record) :
    storedOk (processList (newAccount c) rs) :=
  storedOk_processList (storedOk_newAccount c) rs

/-- C3: `chargeback` is a no-op exactly when no transaction is stored for
`r.tx` or the stored transaction is not currently disputed; it is not gated
on `locked`.  Otherwise (on any account whose stored transactions all carry
amounts, which holds for all reachable states by C10's invariant) it has a
present amount `a`, and it subtracts `a` from `held`, leaves `available`
(and the stored transactions) unchanged, and sets `locked := true`. -/
theorem c3_chargeback_spec (acc : LiveAccount) (r : Record)
    (hok : storedOk acc) :
    (acc.transaction_record r.tx = none → chargeback acc r = acc) ∧
    (∀ t, acc.transaction_record r.tx = some t → t.frozen = false →
      chargeback acc r = acc) ∧
    (∀ t, acc.transaction_record r.tx = some t → t.frozen = true →
      ∃ a, t.amount = some a ∧
        chargeback acc r =
          { acc with
            account_details :=
              { acc.account_details with
                held := acc.account_details.held - a
                locked := true } }) := by
  refine ⟨fun h => chargeback_of_not_found acc r h,
    fun t ht hf => chargeback_of_not_frozen acc r t ht hf, ?_⟩
  intro t ht hf
  rcases ha : t.amount with _ | a
  · exact absurd (hok _ _ ht) (by simp [ha])
  · exact ⟨a, rfl, chargeback_effect acc r t a ht hf ha⟩

/-- Witness for C3 at a concrete account holding one disputed transaction of
amount 5 and one undisputed one. -/
theorem c3_chargeback_spec_witness :
    ∃ a, (5 : ℚ) = a ∧
      chargeback
        { transaction_record := fun k =>
            if k = 1 then some ⟨"deposit", 1, 1, some 5, true⟩ else none
          account_details :=
            { client := 1, available := 0, held := 5, total := 5
              locked := false } }
        ⟨"chargeback", 1, 1, none, false⟩ =
      { transaction_record := fun k =>
          if k = 1 then some ⟨"deposit", 1, 1, some 5, true⟩ else none
        account_details :=
          { client := 1, available := 0, held := 5 - a, total := 5
            locked := true } } := by
  have h := c3_chargeback_spec
    { transaction_record := fun k =>
        if k = 1 then some ⟨"deposit", 1, 1, some 5, true⟩ else none
      account_details :=
        { client := 1, available := 0, held := 5, total := 5, locked := false } }
    ⟨"chargeback", 1, 1, none, false⟩
    (by
      intro k t hkt
      by_cases hk : k = 1
      · simp [hk] at hkt
        simp [← hkt]
      · simp [hk] at hkt)
  obtain ⟨a, ha, heff⟩ := h.2.2 ⟨"deposit", 1, 1, some 5, true⟩ (by simp) rfl
  exact ⟨a, by simpa using ha, heff⟩

/-- C5: `dispute` is a no-op when the account is locked, when no transaction
is stored for `r.tx`, or when the stored transaction is already disputed (so
a second dispute of the same `tx` is a no-op); otherwise it subtracts the
stored amount from `available`, adds the same amount to `held` (so the sum
`available + held` is preserved: no new total funds), and marks the stored
transaction disputed. -/
theorem c5_dispute_spec (acc : LiveAccount) (r : Record) :
    (acc.account_details.locked = true → dispute acc r = acc) ∧
    (acc.transaction_record r.tx = none → dispute acc r = acc) ∧
    (∀ t, acc.transaction_record r.tx = some t → t.frozen = true →
      dispute acc r = acc) ∧
    (∀ t a, acc.account_details.locked = false →
      acc.transaction_record r.tx = some t → t.frozen = false →
      t.amount = some a →
      dispute acc r =
        { transaction_record :=
            insertTx acc.transaction_record r.tx { t with frozen := true }
          account_details :=
            { acc.account_details with
              available := acc.account_details.available - a
              held := acc.account_details.held + a } } ∧
      (dispute acc r).account_details.available +
          (dispute acc r).account_details.held =
        acc.account_details.available + acc.account_details.held) := by
  refine ⟨fun h => dispute_of_locked acc r h,
    fun h => dispute_of_not_found acc r h,
    fun t ht hf => dispute_of_frozen acc r t ht hf, ?_⟩
  intro t a hl ht hf ha
  have he := dispute_effect acc r t a hl ht hf ha
  refine ⟨he, ?_⟩
  rw [he]
  ring

/-- Witness for C5 at a concrete account holding one undisputed deposit of
amount 5. -/
theorem c5_dispute_spec_witness :
    dispute
        { transaction_record := fun k =>
            if k = 1 then some ⟨"deposit", 1, 1, some 5, false⟩ else none
          account_details :=
            { client := 1, available := 5, held := 0, total := 5
              locked := false } }
        ⟨"dispute", 1, 1, none, false⟩ =
      { transaction_record :=
          insertTx
            (fun k => if k = 1 then some ⟨"deposit", 1, 1, some 5, false⟩
              else none)
            1 ⟨"deposit", 1, 1, some 5, true⟩
        account_details :=
          { client := 1, available := 5 - 5, held := 0 + 5
            locked := false, total := 5 } } := by
  exact (c5_dispute_spec
    { transaction_record := fun k =>
        if k = 1 then some ⟨"deposit", 1, 1, some 5, false⟩ else none
      account_details :=
        { client := 1, available := 5, held := 0, total := 5, locked := false } }
    ⟨"dispute", 1, 1, none, false⟩).2.2.2
    ⟨"deposit", 1, 1, some 5, false⟩ 5 rfl (by simp) rfl rfl |>.1

/-- C7: `deposit` is a silent no-op when the account is locked or the record
carries no amount; otherwise it increases `available` by the amount and
stores the record keyed by `r.tx` (overwriting any previously stored
transaction with that id).  Input records carry `frozen = false`, and the
record is stored verbatim, so the stored disputed flag is false. -/
theorem c7_deposit_spec (acc : LiveAccount) (r : Record) :
    (acc.account_details.locked = true → deposit acc r = acc) ∧
    (r.amount = none → deposit acc r = acc) ∧
    (∀ a, acc.account_details.locked = false → r.amount = some a →
      r.frozen = false →
      deposit acc r =
        { transaction_record := insertTx acc.transaction_record r.tx r
          account_details :=
            { acc.account_details with
              available := acc.account_details.available + a } } ∧
      (deposit acc r).transaction_record r.tx = some r ∧
      r.frozen = false) := by
  refine ⟨fun h => deposit_of_locked acc r h,
    fun h => deposit_of_none acc r h, ?_⟩
  intro a hl ha hf
  have he := deposit_effect acc r a hl ha
  refine ⟨he, ?_, hf⟩
  rw [he]
  simp [insertTx]

/-- Witness for C7: a deposit of amount 3 with `tx = 1` on an account that
already stores a different transaction under `tx = 1`; the old stored
transaction is overwritten. -/
theorem c7_deposit_spec_witness :
    deposit
        { transaction_record := fun k =>
            if k = 1 then some ⟨"deposit", 1, 1, some 9, false⟩ else none
          account_details :=
            { client := 1, available := 9, held := 0, total := 9
              locked := false } }
        ⟨"deposit", 1, 1, some 3, false⟩ =
      { transaction_record :=
          insertTx
            (fun k => if k = 1 then some ⟨"deposit", 1, 1, some 9, false⟩
              else none)
            1 ⟨"deposit", 1, 1, some 3, false⟩
        account_details :=
          { client := 1, available := 9 + 3, held := 0, total := 9
            locked := false } } ∧
    (deposit
        { transaction_record := fun k =>
            if k = 1 then some ⟨"deposit", 1, 1, some 9, false⟩ else none
          account_details :=
            { client := 1, available := 9, held := 0, total := 9
              locked := false } }
        ⟨"deposit", 1, 1, some 3, false⟩).transaction_record 1 =
      some ⟨"deposit", 1, 1, some 3, false⟩ := by
  have h := (c7_deposit_spec
    { transaction_record := fun k =>
        if k = 1 then some ⟨"deposit", 1, 1, some 9, false⟩ else none
      account_details :=
        { client := 1, available := 9, held := 0, total := 9, locked := false } }
    ⟨"deposit", 1, 1, some 3, false⟩).2.2 3 rfl rfl rfl
  exact ⟨h.1, h.2.1⟩

/-- C8: `withdraw` on an unlocked account with a present amount decreases
`available` by the amount with no sufficiency check (`held` and `locked` are
untouched), so `available` can go negative: the single record
`withdrawal,7,1,50.0` processed from an empty registry leaves client 7 with
available = -50, held = 0, total = -50, locked = false. -/
theorem c8_withdraw_no_sufficiency_check (acc : LiveAccount) (r : Record) :
    (∀ a, acc.account_details.locked = false → r.amount = some a →
      (withdraw acc r).account_details.available =
          acc.account_details.available - a ∧
      (withdraw acc r).account_details.held = acc.account_details.held ∧
      (withdraw acc r).account_details.locked = false) ∧
    Option.map (fun acc => acc.account_details)
        ((processRecords [⟨"withdrawal", 7, 1, some 50, false⟩]).accounts 7) =
      some ⟨7, -50, 0, -50, false⟩ := by
  constructor
  · intro a hl ha
    rw [withdraw_effect acc r a hl ha]
    exact ⟨rfl, rfl, hl⟩
  · simp only [processRecords, List.foldl, process_record]
    norm_num [process_eq_withdraw, withdraw, newAccount, recompute,
      recompute_total, round_values, round4, roundAZ, insertTx]

/-- Witness for C8: withdrawing 50 from a fresh account drives `available`
to -50 with `held` and `locked` untouched. -/
theorem c8_withdraw_no_sufficiency_check_witness :
    (withdraw (newAccount 7)
        ⟨"withdrawal", 7, 1, some 50, false⟩).account_details.available =
      0 - 50 ∧
    (withdraw (newAccount 7)
        ⟨"withdrawal", 7, 1, some 50, false⟩).account_details.held = 0 ∧
    (withdraw (newAccount 7)
        ⟨"withdrawal", 7, 1, some 50, false⟩).account_details.locked = false :=
  (c8_withdraw_no_sufficiency_check (newAccount 7)
    ⟨"withdrawal", 7, 1, some 50, false⟩).1 50 rfl rfl

theorem dispute_of_amount_none (acc : LiveAccount) (r : Record) (t : Record)
    (ht : acc.transaction_record r.tx = some t) (ha : t.amount = none) :
    dispute acc r = acc := by
  simp [dispute, ht, ha]

theorem chargeback_of_amount_none (acc : LiveAccount) (r : Record) (t : Record)
    (ht : acc.transaction_record r.tx = some t) (ha : t.amount = none) :
    chargeback acc r = acc := by
  simp [chargeback, ht, ha]

theorem resolve_of_amount_none (acc : LiveAccount) (r : Record) (t : Record)
    (hl : acc.account_details.locked = false)
    (ht : acc.transaction_record r.tx = some t)
    (hf : t.frozen = true) (ha : t.amount = none) :
    resolve acc r =
      { acc with
        transaction_record :=
          insertTx acc.transaction_record r.tx { t with frozen := false } } := by
  simp [resolve, hl, ht, hf, ha]

theorem chargeback_available_eq (acc : LiveAccount) (r : Record) :
    (chargeback acc r).account_details.available =
      acc.account_details.available := by
  rcases ht : acc.transaction_record r.tx with _ | t
  · rw [chargeback_of_not_found acc r ht]
  · by_cases hf : t.frozen = true
    · rcases ha : t.amount with _ | a
      · rw [chargeback_of_amount_none acc r t ht ha]
      · rw [chargeback_effect acc r t a ht hf ha]
    · rw [chargeback_of_not_frozen acc r t ht (by simpa using hf)]

theorem chargeback_locked_stays (acc : LiveAccount) (r : Record)
    (hl : acc.account_details.locked = true) :
    (chargeback acc r).account_details.locked = true := by
  rcases ht : acc.transaction_record r.tx with _ | t
  · rw [chargeback_of_not_found acc r ht]; exact hl
  · by_cases hf : t.frozen = true
    · rcases ha : t.amount with _ | a
      · rw [chargeback_of_amount_none acc r t ht ha]; exact hl
      · rw [chargeback_effect acc r t a ht hf ha]
    · rw [chargeback_of_not_frozen acc r t ht (by simpa using hf)]; exact hl

/-- C2 counterexample: after deposit(tx 1, 10), dispute(1), chargeback(1) the
account is locked, yet a second chargeback of the still-disputed stored
transaction changes `held` again (0 becomes -10): `chargeback` is not gated
on `locked` and never clears the stored `frozen` flag. -/
theorem c2_counterexample :
    (processList (newAccount 1)
        [⟨"deposit", 1, 1, some 10, false⟩, ⟨"dispute", 1, 1, none, false⟩,
         ⟨"chargeback", 1, 1, none, false⟩]).account_details.locked = true ∧
    (processList (newAccount 1)
        [⟨"deposit", 1, 1, some 10, false⟩, ⟨"dispute", 1, 1, none, false⟩,
         ⟨"chargeback", 1, 1, none, false⟩,
         ⟨"chargeback", 1, 1, none, false⟩]).account_details.held ≠
      (processList (newAccount 1)
        [⟨"deposit", 1, 1, some 10, false⟩, ⟨"dispute", 1, 1, none, false⟩,
         ⟨"chargeback", 1, 1, none, false⟩]).account_details.held := by
  norm_num [processList, deposit, dispute, chargeback, recompute,
    recompute_total, round_values, round4, roundAZ, insertTx, newAccount]

/-- C2 amended: once an account is locked, `locked` stays true and
`available` never changes under any further record (its stored value is
4-decimal, hence stable under the trailing re-rounding); `held` however can
still change, via a repeated chargeback of a still-disputed stored
transaction, as the counterexample shows. -/
theorem c2_amended (acc : LiveAccount) (r : Record)
    (hq : quant acc.account_details.available)
    (hl : acc.account_details.locked = true) :
    (process_transaction acc r).account_details.locked = true ∧
    (process_transaction acc r).account_details.available =
      acc.account_details.available := by
  rw [process_eq_dispatch]
  by_cases hr : recognizedKind r
  · rw [if_pos hr]
    have hd : (dispatch acc r).account_details.available =
        acc.account_details.available ∧
        (dispatch acc r).account_details.locked = true := by
      unfold dispatch
      by_cases h1 : r.type = "deposit"
      · rw [if_pos h1, deposit_of_locked acc r hl]; exact ⟨rfl, hl⟩
      · rw [if_neg h1]
        by_cases h2 : r.type = "withdrawal"
        · rw [if_pos h2, withdraw_of_locked acc r hl]; exact ⟨rfl, hl⟩
        · rw [if_neg h2]
          by_cases h3 : r.type = "dispute"
          · rw [if_pos h3, dispute_of_locked acc r hl]; exact ⟨rfl, hl⟩
          · rw [if_neg h3]
            by_cases h4 : r.type = "resolve"
            · rw [if_pos h4, resolve_of_locked acc r hl]; exact ⟨rfl, hl⟩
            · rw [if_neg h4]
              by_cases h5 : r.type = "chargeback"
              · rw [if_pos h5]
                exact ⟨chargeback_available_eq acc r,
                  chargeback_locked_stays acc r hl⟩
              · rw [if_neg h5]; exact ⟨rfl, hl⟩
    refine ⟨?_, ?_⟩
    · rw [recompute_locked]; exact hd.2
    · rw [recompute_available, hd.1, quant_round4 hq]
  · rw [if_neg hr]; exact ⟨hl, rfl⟩

/-- Witness for C2 (amended) on a concrete locked account and a deposit
record. -/
theorem c2_amended_witness :
    quant (0 : ℚ) ∧
    ((process_transaction
        { transaction_record := fun _ => none
          account_details :=
            { client := 1, available := 0, held := 0, total := 0
              locked := true } }
        ⟨"deposit", 1, 1, some 5, false⟩).account_details.locked = true ∧
      (process_transaction
        { transaction_record := fun _ => none
          account_details :=
            { client := 1, available := 0, held := 0, total := 0
              locked := true } }
        ⟨"deposit", 1, 1, some 5, false⟩).account_details.available = 0) :=
  ⟨quant_zero,
    c2_amended
      { transaction_record := fun _ => none
        account_details :=
          { client := 1, available := 0, held := 0, total := 0, locked := true } }
      ⟨"deposit", 1, 1, some 5, false⟩ quant_zero rfl⟩

theorem mapQuant_insertTx {m : Nat → Option Record} (hm : mapQuant m)
    {k : Nat} {t : Record} (ht : ∀ a, t.amount = some a → quant a) :
    mapQuant (insertTx m k t) := by
  intro k' t' a h' ha
  unfold insertTx at h'
  by_cases hk : k' = k
  · rw [if_pos hk] at h'
    cases h'
    exact ht a ha
  · rw [if_neg hk] at h'
    exact hm _ _ _ h' ha

theorem ledgerQuant_recompute {acc : LiveAccount}
    (hq : quant acc.account_details.available)
    (hh : quant acc.account_details.held)
    (hm : mapQuant acc.transaction_record) :
    ledgerQuant (recompute acc) := by
  refine ⟨?_, ?_, ?_, hm⟩
  · rw [recompute_available, quant_round4 hq]; exact hq
  · rw [recompute_held, quant_round4 hh]; exact hh
  · rw [recompute_total_eq, recompute_available, recompute_held,
      quant_round4 hq, quant_round4 hh, quant_round4 (quant_add hq hh)]

theorem partQuant_deposit {acc : LiveAccount} (h : partQuant acc)
    {r : Record} (hr : recordQuant r) : partQuant (deposit acc r) := by
  obtain ⟨hq, hh, hm⟩ := h
  by_cases hl : acc.account_details.locked = true
  · rw [deposit_of_locked acc r hl]; exact ⟨hq, hh, hm⟩
  · rcases ha : r.amount with _ | a
    · rw [deposit_of_none acc r ha]; exact ⟨hq, hh, hm⟩
    · rw [deposit_effect acc r a (by simpa using hl) ha]
      exact ⟨quant_add hq (hr a ha), hh, mapQuant_insertTx hm hr⟩

theorem partQuant_withdraw {acc : LiveAccount} (h : partQuant acc)
    {r : Record} (hr : recordQuant r) : partQuant (withdraw acc r) := by
  obtain ⟨hq, hh, hm⟩ := h
  by_cases hl : acc.account_details.locked = true
  · rw [withdraw_of_locked acc r hl]; exact ⟨hq, hh, hm⟩
  · rcases ha : r.amount with _ | a
    · rw [withdraw_of_none acc r ha]; exact ⟨hq, hh, hm⟩
    · rw [withdraw_effect acc r a (by simpa using hl) ha]
      exact ⟨quant_sub hq (hr a ha), hh, mapQuant_insertTx hm hr⟩

theorem partQuant_dispute {acc : LiveAccount} (h : partQuant acc)
    (r : Record) : partQuant (dispute acc r) := by
  obtain ⟨hq, hh, hm⟩ := h
  by_cases hl : acc.account_details.locked = true
  · rw [dispute_of_locked acc r hl]; exact ⟨hq, hh, hm⟩
  · rcases ht : acc.transaction_record r.tx with _ | t
    · rw [dispute_of_not_found acc r ht]; exact ⟨hq, hh, hm⟩
    · by_cases hf : t.frozen = true
      · rw [dispute_of_frozen acc r t ht hf]; exact ⟨hq, hh, hm⟩
      · rcases ha : t.amount with _ | a
        · rw [dispute_of_amount_none acc r t ht ha]; exact ⟨hq, hh, hm⟩
        · have hat : quant a := hm _ _ _ ht ha
          rw [dispute_effect acc r t a (by simpa using hl) ht
            (by simpa using hf) ha]
          refine ⟨quant_sub hq hat, quant_add hh hat,
            mapQuant_insertTx hm ?_⟩
          intro b hb
          rw [show ({ t with frozen := true } : Record).amount = t.amount
            from rfl, ha] at hb
          cases hb
          exact hat

theorem partQuant_resolve {acc : LiveAccount} (h : partQuant acc)
    (r : Record) : partQuant (resolve acc r) := by
  obtain ⟨hq, hh, hm⟩ := h
  by_cases hl : acc.account_details.locked = true
  · rw [resolve_of_locked acc r hl]; exact ⟨hq, hh, hm⟩
  · rcases ht : acc.transaction_record r.tx with _ | t
    · rw [resolve_of_not_found acc r ht]; exact ⟨hq, hh, hm⟩
    · by_cases hf : t.frozen = true
      · rcases ha : t.amount with _ | a
        · rw [resolve_of_amount_none acc r t (by simpa using hl) ht hf ha]
          refine ⟨hq, hh, mapQuant_insertTx hm ?_⟩
          intro b hb
          rw [show ({ t with frozen := false } : Record).amount = t.amount
            from rfl, ha] at hb
          cases hb
        · have hat : quant a := hm _ _ _ ht ha
          rw [resolve_effect acc r t a (by simpa using hl) ht hf ha]
          refine ⟨quant_add hq hat, quant_sub hh hat,
            mapQuant_insertTx hm ?_⟩
          intro b hb
          rw [show ({ t with frozen := false } : Record).amount = t.amount
            from rfl, ha] at hb
          cases hb
          exact hat
      · rw [resolve_of_not_frozen acc r t ht (by simpa using hf)]
        exact ⟨hq, hh, hm⟩

theorem partQuant_chargeback {acc : LiveAccount} (h : partQuant acc)
    (r : Record) : partQuant (chargeback acc r) := by
  obtain ⟨hq, hh, hm⟩ := h
  rcases ht : acc.transaction_record r.tx with _ | t
  · rw [chargeback_of_not_found acc r ht]; exact ⟨hq, hh, hm⟩
  · by_cases hf : t.frozen = true
    · rcases ha : t.amount with _ | a
      · rw [chargeback_of_amount_none acc r t ht ha]; exact ⟨hq, hh, hm⟩
      · rw [chargeback_effect acc r t a ht hf ha]
        exact ⟨hq, quant_sub hh (hm _ _ _ ht ha), hm⟩
    · rw [chargeback_of_not_frozen acc r t ht (by simpa using hf)]
      exact ⟨hq, hh, hm⟩

theorem ledgerQuant_process {acc : LiveAccount} (h : ledgerQuant acc)
    {r : Record} (hr : recordQuant r) :
    ledgerQuant (process_transaction acc r) := by
  have hp : partQuant acc := ⟨h.1, h.2.1, h.2.2.2⟩
  rw [process_eq_dispatch]
  by_cases hrec : recognizedKind r
  · rw [if_pos hrec]
    have hd : partQuant (dispatch acc r) := by
      unfold dispatch
      by_cases h1 : r.type = "deposit"
      · rw [if_pos h1]; exact partQuant_deposit hp hr
      · rw [if_neg h1]
        by_cases h2 : r.type = "withdrawal"
        · rw [if_pos h2]; exact partQuant_withdraw hp hr
        · rw [if_neg h2]
          by_cases h3 : r.type = "dispute"
          · rw [if_pos h3]; exact partQuant_dispute hp r
          · rw [if_neg h3]
            by_cases h4 : r.type = "resolve"
            · rw [if_pos h4]; exact partQuant_resolve hp r
            · rw [if_neg h4]
              by_cases h5 : r.type = "chargeback"
              · rw [if_pos h5]; exact partQuant_chargeback hp r
              · rw [if_neg h5]; exact hp
    exact ledgerQuant_recompute hd.1 hd.2.1 hd.2.2
  · rw [if_neg hrec]; exact h

theorem ledgerQuant_newAccount (c : Nat) : ledgerQuant (newAccount c) := by
  refine ⟨quant_zero, quant_zero, by norm_num [newAccount], ?_⟩
  intro k t a h
  simp [newAccount] at h

theorem ledgerQuant_processList {acc : LiveAccount} (h : ledgerQuant acc)
    {rs : List Record} (hrs : ∀ r ∈ rs, recordQuant r) :
    ledgerQuant (processList acc rs) := by
  induction rs generalizing acc with
  | nil => exact h
  | cons r rs ih =>
    exact ih (ledgerQuant_process h (hrs r (List.mem_cons_self r rs)))
      (fun r' hr' => hrs r' (List.mem_cons_of_mem r hr'))

/-- C1 counterexample: a deposit of the tie amount 0.00005 followed by its
dispute leaves available = held = total = 0.0001, so `total` differs from
`available + held` even though every balance is rounded to 4 decimals: the
per-field rounding of `recompute_total` does not commute with the sum at
half-tie amounts. -/
theorem c1_counterexample :
    (processList (newAccount 1)
        [⟨"deposit", 1, 1, some (1/20000), false⟩,
         ⟨"dispute", 1, 1, none, false⟩]).account_details.total ≠
      (processList (newAccount 1)
          [⟨"deposit", 1, 1, some (1/20000), false⟩,
           ⟨"dispute", 1, 1, none, false⟩]).account_details.available +
        (processList (newAccount 1)
          [⟨"deposit", 1, 1, some (1/20000), false⟩,
           ⟨"dispute", 1, 1, none, false⟩]).account_details.held := by
  norm_num [processList, deposit, dispute, recompute, recompute_total,
    round_values, round4, roundAZ, insertTx, newAccount]

/-- C1 amended: for every stream whose amounts are all 4-decimal (integer
multiples of 10⁻⁴ — the granularity of the output format), after processing
any record the account satisfies `total = available + held`, and each of the
three balances is itself a 4-decimal value (so rounding is the identity on
them). -/
theorem c1_amended (c : Nat) (rs : List Record)
    (h : ∀ r ∈ rs, recordQuant r) :
    (processList (newAccount c) rs).account_details.total =
      (processList (newAccount c) rs).account_details.available +
        (processList (newAccount c) rs).account_details.held ∧
    quant (processList (newAccount c) rs).account_details.available ∧
    quant (processList (newAccount c) rs).account_details.held ∧
    quant (processList (newAccount c) rs).account_details.total := by
  have hq := ledgerQuant_processList (ledgerQuant_newAccount c) h
  exact ⟨hq.2.2.1, hq.1, hq.2.1,
    hq.2.2.1 ▸ quant_add hq.1 hq.2.1⟩

/-- Witness for C1 (amended) on the one-record stream depositing 10. -/
theorem c1_amended_witness :
    (processList (newAccount 1)
        [⟨"deposit", 1, 1, some 10, false⟩]).account_details.total =
      (processList (newAccount 1)
          [⟨"deposit", 1, 1, some 10, false⟩]).account_details.available +
        (processList (newAccount 1)
          [⟨"deposit", 1, 1, some 10, false⟩]).account_details.held ∧
    quant (processList (newAccount 1)
      [⟨"deposit", 1, 1, some 10, false⟩]).account_details.available ∧
    quant (processList (newAccount 1)
      [⟨"deposit", 1, 1, some 10, false⟩]).account_details.held ∧
    quant (processList (newAccount 1)
      [⟨"deposit", 1, 1, some 10, false⟩]).account_details.total := by
  refine c1_amended 1 [⟨"deposit", 1, 1, some 10, false⟩] ?_
  intro r hr a ha
  rw [List.mem_singleton.mp hr] at ha
  cases ha
  exact ⟨100000, by norm_num⟩

theorem recompute_eq_self {acc : LiveAccount}
    (hq : quant acc.account_details.available)
    (hh : quant acc.account_details.held)
    (htot : acc.account_details.total =
      acc.account_details.available + acc.account_details.held) :
    recompute acc = acc := by
  cases acc with
  | mk m d =>
    cases d with
    | mk c av hd tot l =>
      unfold recompute recompute_total round_values
      simp only at hq hh htot
      simp only [quant_round4 hq, quant_round4 hh,
        quant_round4 (quant_add hq hh), htot]

/-- C4 counterexample: a `deposit` record with an absent amount is a
recognized kind whose precondition fails, yet the account state changes:
from the reachable tie state (available = held = total = 0.0001, produced by
depositing 0.00005 and disputing it), processing the no-op deposit still
runs `recompute_total`, which resets `total` to `available + held` = 0.0002.
So the recompute-and-round step IS applied after recognized no-ops. -/
theorem c4_counterexample :
    (process_transaction
        (processList (newAccount 1)
          [⟨"deposit", 1, 1, some (1/20000), false⟩,
           ⟨"dispute", 1, 1, none, false⟩])
        ⟨"deposit", 1, 2, none, false⟩).account_details.total ≠
      (processList (newAccount 1)
        [⟨"deposit", 1, 1, some (1/20000), false⟩,
         ⟨"dispute", 1, 1, none, false⟩]).account_details.total := by
  norm_num [processList, deposit, dispute, recompute, recompute_total,
    round_values, round4, roundAZ, insertTx, newAccount]

/-- C4 amended: a record of unrecognized kind leaves the state entirely
unchanged (no recompute); a record of recognized kind whose dispatched
operation is a no-op leaves `available`, `held`, `locked` and the stored
transactions unchanged, but the recompute-and-round step IS applied, so the
resulting state is the old one with `total := available + held` (when the
balances are 4-decimal, so that re-rounding them is the identity). -/
theorem c4_amended (acc : LiveAccount) (r : Record)
    (hq : quant acc.account_details.available)
    (hh : quant acc.account_details.held) :
    (¬ recognizedKind r → process_transaction acc r = acc) ∧
    (recognizedKind r → dispatch acc r = acc →
      process_transaction acc r =
        { acc with
          account_details :=
            { acc.account_details with
              total := acc.account_details.available +
                acc.account_details.held } }) := by
  refine ⟨process_eq_unknown acc r, ?_⟩
  intro hrec hid
  rw [process_eq_dispatch, if_pos hrec, hid]
  cases acc with
  | mk m d =>
    cases d with
    | mk c av hd tot l =>
      unfold recompute recompute_total round_values
      simp only at hq hh
      simp only [quant_round4 hq, quant_round4 hh,
        quant_round4 (quant_add hq hh)]

/-- Witness for C4 (amended): an unrecognized kind on a fresh account leaves
it untouched. -/
theorem c4_amended_witness :
    quant ((newAccount 1).account_details.available) ∧
    process_transaction (newAccount 1) ⟨"foo", 1, 1, some 5, false⟩ =
      newAccount 1 :=
  ⟨quant_zero,
    (c4_amended (newAccount 1) ⟨"foo", 1, 1, some 5, false⟩ quant_zero
      quant_zero).1 (by simp [recognizedKind])⟩

/-- C9 counterexample: a `dispute` referencing an unknown `tx` (99) from the
reachable tie state (available = held = total = 0.0001) leaves the dispute
lifecycle untouched but still runs `recompute_total`, changing `total` from
0.0001 to 0.0002. -/
theorem c9_counterexample :
    (process_transaction
        (processList (newAccount 1)
          [⟨"deposit", 1, 1, some (1/20000), false⟩,
           ⟨"dispute", 1, 1, none, false⟩])
        ⟨"dispute", 1, 99, none, false⟩).account_details.total ≠
      (processList (newAccount 1)
        [⟨"deposit", 1, 1, some (1/20000), false⟩,
         ⟨"dispute", 1, 1, none, false⟩]).account_details.total := by
  norm_num [processList, deposit, dispute, recompute, recompute_total,
    round_values, round4, roundAZ, insertTx, newAccount]

/-- C9 amended: a `dispute`, `resolve` or `chargeback` record referencing a
`tx` with no stored transaction leaves `available`, `held`, `locked` and the
stored transactions unchanged (the balances being 4-decimal, re-rounding is
the identity), and resets `total := available + held`; in particular the
whole state is unchanged exactly when `total = available + held` already
held, e.g. on 4-decimal streams (C1 amended). -/
theorem c9_amended (acc : LiveAccount) (r : Record)
    (hq : quant acc.account_details.available)
    (hh : quant acc.account_details.held)
    (hkind : r.type = "dispute" ∨ r.type = "resolve" ∨ r.type = "chargeback")
    (hnone : acc.transaction_record r.tx = none) :
    (process_transaction acc r).account_details.available =
      acc.account_details.available ∧
    (process_transaction acc r).account_details.held =
      acc.account_details.held ∧
    (process_transaction acc r).account_details.locked =
      acc.account_details.locked ∧
    (process_transaction acc r).transaction_record =
      acc.transaction_record ∧
    (process_transaction acc r).account_details.total =
      acc.account_details.available + acc.account_details.held ∧
    (acc.account_details.total =
        acc.account_details.available + acc.account_details.held →
      process_transaction acc r = acc) := by
  have hstep : process_transaction acc r = recompute acc := by
    rcases hkind with h | h | h
    · rw [process_eq_dispute acc r h, dispute_of_not_found acc r hnone]
    · rw [process_eq_resolve acc r h, resolve_of_not_found acc r hnone]
    · rw [process_eq_chargeback acc r h, chargeback_of_not_found acc r hnone]
  rw [hstep]
  refine ⟨?_, ?_, rfl, rfl, ?_, fun htot => recompute_eq_self hq hh htot⟩
  · rw [recompute_available, quant_round4 hq]
  · rw [recompute_held, quant_round4 hh]
  · rw [recompute_total_eq, quant_round4 (quant_add hq hh)]

/-- Witness for C9 (amended): a `resolve` of the unknown `tx = 5` on a fresh
account. -/
theorem c9_amended_witness :
    (process_transaction (newAccount 2)
        ⟨"resolve", 2, 5, none, false⟩).account_details.available =
      (newAccount 2).account_details.available ∧
    (process_transaction (newAccount 2)
        ⟨"resolve", 2, 5, none, false⟩).account_details.held =
      (newAccount 2).account_details.held ∧
    (process_transaction (newAccount 2)
        ⟨"resolve", 2, 5, none, false⟩).account_details.locked =
      (newAccount 2).account_details.locked ∧
    (process_transaction (newAccount 2)
        ⟨"resolve", 2, 5, none, false⟩).transaction_record =
      (newAccount 2).transaction_record ∧
    (process_transaction (newAccount 2)
        ⟨"resolve", 2, 5, none, false⟩).account_details.total =
      (newAccount 2).account_details.available +
        (newAccount 2).account_details.held ∧
    ((newAccount 2).account_details.total =
        (newAccount 2).account_details.available +
          (newAccount 2).account_details.held →
      process_transaction (newAccount 2) ⟨"resolve", 2, 5, none, false⟩ =
        newAccount 2) :=
  c9_amended (newAccount 2) ⟨"resolve", 2, 5, none, false⟩ quant_zero
    quant_zero (Or.inr (Or.inl rfl)) rfl

/-- C6 counterexample: the account accepted only `deposit(tx 1, 0.00005)`
(so available = 0.0001 after tie rounding); `dispute(1)` then `resolve(1)`
leaves available = 0.0002, not the pre-dispute 0.0001: each operation rounds
half away from zero and the tie amount 0.00005 rounds up twice. -/
theorem c6_counterexample :
    (processList (newAccount 1)
        [⟨"deposit", 1, 1, some (1/20000), false⟩,
         ⟨"dispute", 1, 1, none, false⟩,
         ⟨"resolve", 1, 1, none, false⟩]).account_details.available ≠
      (processList (newAccount 1)
        [⟨"deposit", 1, 1, some (1/20000), false⟩]).account_details.available := by
  norm_num [processList, deposit, dispute, resolve, recompute,
    recompute_total, round_values, round4, roundAZ, insertTx, newAccount]

/-- C6 amended: on an unlocked account storing an undisputed transaction `t`
of 4-decimal amount `a` under key `tx`, with 4-decimal balances (all of
which hold on any reachable state produced by a 4-decimal stream that
accepted `deposit(tx, a)` and took no other action on `tx`), processing
`dispute(tx)` then `resolve(tx)` restores `available` and `held` exactly and
returns the stored transaction to its undisputed state `t`. -/
theorem c6_amended (acc : LiveAccount) (tx : Nat) (t : Record) (a : ℚ)
    (rd rr : Record)
    (hl : acc.account_details.locked = false)
    (ht : acc.transaction_record tx = some t)
    (hf : t.frozen = false) (ha : t.amount = some a)
    (hqa : quant a) (hqav : quant acc.account_details.available)
    (hqh : quant acc.account_details.held)
    (hrd : rd.type = "dispute") (hrdtx : rd.tx = tx)
    (hrr : rr.type = "resolve") (hrrtx : rr.tx = tx) :
    (process_transaction (process_transaction acc rd)
        rr).account_details.available = acc.account_details.available ∧
    (process_transaction (process_transaction acc rd)
        rr).account_details.held = acc.account_details.held ∧
    (process_transaction (process_transaction acc rd)
        rr).transaction_record tx = some t := by
  have ht' : acc.transaction_record rd.tx = some t := by rw [hrdtx]; exact ht
  have hd1 := dispute_effect acc rd t a hl ht' hf ha
  rw [process_eq_dispute acc rd hrd, hd1]
  rw [process_eq_resolve _ rr hrr]
  have hl2 :
      (recompute
        { transaction_record :=
            insertTx acc.transaction_record rd.tx { t with frozen := true }
          account_details :=
            { acc.account_details with
              available := acc.account_details.available - a
              held := acc.account_details.held + a } }).account_details.locked
        = false := by
    rw [recompute_locked]; exact hl
  have ht2 :
      (recompute
        { transaction_record :=
            insertTx acc.transaction_record rd.tx { t with frozen := true }
          account_details :=
            { acc.account_details with
              available := acc.account_details.available - a
              held := acc.account_details.held + a } }).transaction_record
        rr.tx = some { t with frozen := true } := by
    rw [recompute_map]
    simp [insertTx, hrrtx, hrdtx]
  have hres := resolve_effect _ rr { t with frozen := true } a hl2 ht2 rfl ha
  rw [hres]
  have hback : ({ { t with frozen := true } with frozen := false } : Record)
      = t := by
    cases t with
    | mk ty c x am fz =>
      simp only at hf
      rw [hf]
  have havail : round4 (acc.account_details.available - a) =
      acc.account_details.available - a := quant_round4 (quant_sub hqav hqa)
  have hheld : round4 (acc.account_details.held + a) =
      acc.account_details.held + a := quant_round4 (quant_add hqh hqa)
  refine ⟨?_, ?_, ?_⟩
  · rw [recompute_available, recompute_available]
    simp only []
    rw [havail]
    have : acc.account_details.available - a + a =
        acc.account_details.available := by ring
    rw [this, quant_round4 hqav]
  · rw [recompute_held, recompute_held]
    simp only []
    rw [hheld]
    have : acc.account_details.held + a - a = acc.account_details.held := by
      ring
    rw [this, quant_round4 hqh]
  · rw [recompute_map]
    show insertTx _ rr.tx { { t with frozen := true } with frozen := false }
        tx = some t
    unfold insertTx
    rw [hrrtx, if_pos rfl, hback]

/-- Witness for C6 (amended): deposit of 5 stored under `tx = 1`, disputed
and then resolved, restores the concrete account exactly. -/
theorem c6_amended_witness :
    (process_transaction
        (process_transaction
          { transaction_record := fun k =>
              if k = 1 then some ⟨"deposit", 1, 1, some 5, false⟩ else none
            account_details :=
              { client := 1, available := 5, held := 0, total := 5
                locked := false } }
          ⟨"dispute", 1, 1, none, false⟩)
        ⟨"resolve", 1, 1, none, false⟩).account_details.available = 5 ∧
    (process_transaction
        (process_transaction
          { transaction_record := fun k =>
              if k = 1 then some ⟨"deposit", 1, 1, some 5, false⟩ else none
            account_details :=
              { client := 1, available := 5, held := 0, total := 5
                locked := false } }
          ⟨"dispute", 1, 1, none, false⟩)
        ⟨"resolve", 1, 1, none, false⟩).account_details.held = 0 ∧
    (process_transaction
        (process_transaction
          { transaction_record := fun k =>
              if k = 1 then some ⟨"deposit", 1, 1, some 5, false⟩ else none
            account_details :=
              { client := 1, available := 5, held := 0, total := 5
                locked := false } }
          ⟨"dispute", 1, 1, none, false⟩)
        ⟨"resolve", 1, 1, none, false⟩).transaction_record 1 =
      some ⟨"deposit", 1, 1, some 5, false⟩ :=
  c6_amended
    { transaction_record := fun k =>
        if k = 1 then some ⟨"deposit", 1, 1, some 5, false⟩ else none
      account_details :=
        { client := 1, available := 5, held := 0, total := 5, locked := false } }
    1 ⟨"deposit", 1, 1, some 5, false⟩ 5
    ⟨"dispute", 1, 1, none, false⟩ ⟨"resolve", 1, 1, none, false⟩
    rfl (by simp) rfl rfl ⟨50000, by norm_num⟩ ⟨50000, by norm_num⟩
    quant_zero rfl rfl rfl rfl

end ToyPay
